import Mathlib

/-!
Verification development for the Vine scheduler
(src/source/main.cpp, src/include/vine/vine.hpp).

The scheduler's data model and operations are shallowly embedded:

* the executable graphs (`executable_graph_node`, `executable_graph`,
  main.cpp:60-85) become `FuncNode`, `StageNode` and `Registry`;
* the per-run counters and queues guarded by `queues_mutex`
  (main.cpp:223-249) become `RunState`;
* `thread_worker_handle_node` (main.cpp:317-362), the function branch of
  `thread_worker_loop` (main.cpp:372-412) and `execute_current_machine`
  (main.cpp:414-457) become `handleNode`, `workerIter` / `iterEvents`,
  `seedState` and `runWorkers`, a deterministic single-worker semantics of
  the machine run: workers process queue items one at a time, which is one
  admissible interleaving of the pool;
* lock / unlock of `queues_mutex` and every counter update are additionally
  recorded in an event trace (`Event`), so that statements about what
  happens inside or outside the mutex-protected critical sections can be
  made about concrete positions in the trace;
* counters in the source are `size_t`; decrement of `0` wraps, so counter
  updates go through `dec64` / `inc64` which compute modulo `2 ^ 64`;
* graph linking (`get_node_id`, `link_node`, main.cpp:103-135) is embedded
  as `get_node_id` / `link_node` over `RegEnv`; the unchecked
  `graph.nodes[dep_id]` vector accesses become `Option`-valued updates
  (`none` models the out-of-bounds access, which is undefined behaviour in
  the source);
* machine control state (main.cpp:28-47) becomes `GlobalState` with
  `set_machine` and `default_machine_link`;
* the `task_promise` reference counting (main.cpp:255-311) becomes
  `promise_assign` over an explicit heap of reference counts;
* the worker-loop queue selection (main.cpp:392-409) becomes `workerPick`.

All indices used by the concrete scenarios below are in bounds, where the
source indexes `std::vector` without checks.
-/

namespace Vine

/-- Events recorded while a worker dequeues and handles one function node.
`lock` / `unlock` mark acquisition and release of `queues_mutex`;
the remaining constructors mark the individual counter and queue updates
performed by `thread_worker_loop` and `thread_worker_handle_node`. -/
inductive Event where
  | lock
  | unlock
  | incWorking
  | decWorking
  | dequeueFunc (s f : Nat)
  | runFunc (s f : Nat)
  | decProcessed (s : Nat)
  | incProcessed (s : Nat)
  | decFuncDep (s f : Nat)
  | enqueueFunc (s f : Nat)
  | decStageDep (s : Nat)
deriving DecidableEq

/-- A node of a stage's inner graph (`executable_graph_node<vine::func>`,
main.cpp:61-66): the function payload (`object`, here an opaque numeric id),
the indices of dependant nodes, and the static in-degree (`depedencies`,
spelling kept from the source). -/
structure FuncNode where
  object : Nat
  dependant : List Nat
  depedencies : Nat
deriving DecidableEq

/-- A node of a machine's outer graph (`executable_graph_node<const stage*>`):
`object` is the index of the stage's inner graph in `Registry.stageGraphs`
(modelling the `const stage*` payload resolved through `stages_reg`). -/
structure StageNode where
  object : Nat
  dependant : List Nat
  depedencies : Nat
deriving DecidableEq

/-- The frozen registration snapshot used during one machine run:
`stages_reg` (inner graph per stage) and the current machine's graph from
`machines_reg` (main.cpp:74-85). Graphs are immutable during execution. -/
structure Registry where
  stageGraphs : List (List FuncNode)
  machineGraph : List StageNode
deriving DecidableEq

/-- The mutable per-run state guarded by `queues_mutex` (main.cpp:235-248):
the function queue of `(stage_node_id, func_node_id)` locants, the three
counter families, and an observation log of executed locants (the order in
which `func()` calls happen, main.cpp:325). -/
structure RunState where
  funcsQueue : List (Nat × Nat)
  stageDeps : List Nat
  funcDeps : List (List Nat)
  processed : List Nat
  executed : List (Nat × Nat)
deriving DecidableEq

/-- `size_t` decrement: wraps modulo `2 ^ 64`, so `dec64 0 = 2 ^ 64 - 1`,
exactly as `counter--` behaves on an unsigned 64-bit counter. -/
def dec64 (n : Nat) : Nat := (n + (2 ^ 64 - 1)) % 2 ^ 64

/-- `size_t` increment modulo `2 ^ 64`. -/
def inc64 (n : Nat) : Nat := (n + 1) % 2 ^ 64

/-- Read `funcs_depedencies_conters[s][f]`. -/
def getFD (l : List (List Nat)) (s f : Nat) : Nat := (l.getD s []).getD f 0

/-- Write `funcs_depedencies_conters[s][f]`. -/
def setFD (l : List (List Nat)) (s f v : Nat) : List (List Nat) :=
  l.set s ((l.getD s []).set f v)

/-- Append to `funcs_depedencies_conters[s]` (the `push_back` at
main.cpp:445). -/
def pushFD (l : List (List Nat)) (s v : Nat) : List (List Nat) :=
  l.set s ((l.getD s []) ++ [v])

/-- Indices of nodes with zero static in-degree, as computed by
`find_independants` (main.cpp:167-183) and cached per graph; recomputed here
on demand, which agrees with the cache because graphs are frozen. -/
def independant (g : List FuncNode) : List Nat :=
  (List.range g.length).filter (fun i => (g.getD i ⟨0, [], 0⟩).depedencies == 0)

/-- One step of the dependant traversal of `thread_worker_handle_node`
(main.cpp:334-343), performed while `queues_mutex` is held: decrement the
dependant's remaining in-degree; when it reaches zero, enqueue it and
increment the stage's in-flight counter. -/
def depStep (s : Nat) (acc : RunState × List Event) (depId : Nat) :
    RunState × List Event :=
  let st := acc.1
  let c := dec64 (getFD st.funcDeps s depId)
  let st1 : RunState := { st with funcDeps := setFD st.funcDeps s depId c }
  let ev := acc.2 ++ [Event.decFuncDep s depId]
  if c ≠ 0 then (st1, ev)
  else
    ({ st1 with
        funcsQueue := st1.funcsQueue ++ [(s, depId)]
        processed := st1.processed.set s (inc64 (st1.processed.getD s 0)) },
      ev ++ [Event.enqueueFunc s depId, Event.incProcessed s])

/-- One step of the successor-stage activation of `thread_worker_handle_node`
(main.cpp:347-360): decrement the dependant stage's remaining in-degree;
when it reaches zero, enqueue every independent function node of that stage.
Note that, exactly as in the source, the dependant stage's in-flight counter
`funcs_procesed_counters` is NOT incremented here. -/
def stageStep (reg : Registry) (acc : RunState × List Event) (ds : Nat) :
    RunState × List Event :=
  let st := acc.1
  let c := dec64 (st.stageDeps.getD ds 0)
  let st1 : RunState := { st with stageDeps := st.stageDeps.set ds c }
  let ev := acc.2 ++ [Event.decStageDep ds]
  if c ≠ 0 then (st1, ev)
  else
    let g := reg.stageGraphs.getD ((reg.machineGraph.getD ds ⟨0, [], 0⟩).object) []
    let inds := independant g
    ({ st1 with funcsQueue := st1.funcsQueue ++ inds.map (fun i => (ds, i)) },
      ev ++ inds.map (fun i => Event.enqueueFunc ds i))

/-- `thread_worker_handle_node` (main.cpp:317-362), called by the worker
after it released `queues_mutex` (main.cpp:398-399).  Runs the function,
decrements the stage's in-flight counter (main.cpp:327, with no lock held),
then either locks and traverses the function-level dependants
(main.cpp:330-344) or, for a dependant-less node whose stage's in-flight
counter is zero, activates successor stages (main.cpp:346-361, again with no
lock held).  The returned event list records each update and the lock /
unlock of `queues_mutex`. -/
def handleNode (reg : Registry) (st : RunState) (s f : Nat) :
    RunState × List Event :=
  let stageNode := reg.machineGraph.getD s ⟨0, [], 0⟩
  let stageGraph := reg.stageGraphs.getD stageNode.object []
  let funcNode := stageGraph.getD f ⟨0, [], 0⟩
  let st1 : RunState :=
    { st with
        executed := st.executed ++ [(s, f)]
        processed := st.processed.set s (dec64 (st.processed.getD s 0)) }
  let ev1 := [Event.runFunc s f, Event.decProcessed s]
  if !funcNode.dependant.isEmpty then
    let r := funcNode.dependant.foldl (depStep s) (st1, [])
    (r.1, ev1 ++ [Event.lock] ++ r.2 ++ [Event.unlock])
  else if st1.processed.getD s 0 == 0 then
    let r := stageNode.dependant.foldl (stageStep reg) (st1, [])
    (r.1, ev1 ++ r.2)
  else (st1, ev1)

/-- The event trace of one iteration of the function branch of
`thread_worker_loop` (main.cpp:392-402), handling the dequeued locant
`(s, f)`: acquire `queues_mutex`, increment `threads_working_on_machine`,
pop the queue, release the lock (`lock.~unique_lock()`), run
`thread_worker_handle_node`, then decrement `threads_working_on_machine`
(main.cpp:401) -- after `handleNode` has returned and released any lock it
took. -/
def iterEvents (reg : Registry) (st : RunState) (s f : Nat) : List Event :=
  [Event.lock, Event.incWorking, Event.dequeueFunc s f, Event.unlock] ++
    (handleNode reg st s f).2 ++ [Event.decWorking]

/-- One iteration of the worker loop on the function queue: `none` when the
queue is empty (the worker would wait on `queues_update_cv` and, with no
thread working, signal `machine_completed_cv`, main.cpp:382-388). -/
def workerIter (reg : Registry) (st : RunState) :
    Option (RunState × List Event) :=
  match st.funcsQueue with
  | [] => none
  | fnl :: rest =>
    let st1 : RunState := { st with funcsQueue := rest }
    some ((handleNode reg st1 fnl.1 fnl.2).1, iterEvents reg st1 fnl.1 fnl.2)

/-- Run worker iterations until the function queue is empty (machine drain)
or the fuel runs out.  With a single worker this is the deterministic FIFO
interleaving of the pool. -/
def runWorkers (reg : Registry) : RunState → Nat → RunState
  | st, 0 => st
  | st, Nat.succ fuel =>
    match workerIter reg st with
    | none => st
    | some r => runWorkers reg r.1 fuel

/-- The seeding loop body of `execute_current_machine` (main.cpp:435-453)
for stage node `s`: push the stage's static in-degree, push every function's
static in-degree, and enqueue (and count in-flight) the functions of
zero-in-degree stages whose own in-degree is zero. -/
def seedStage (reg : Registry) (st : RunState) (s : Nat) : RunState :=
  let stageNode := reg.machineGraph.getD s ⟨0, [], 0⟩
  let st1 : RunState := { st with stageDeps := st.stageDeps ++ [stageNode.depedencies] }
  let g := reg.stageGraphs.getD stageNode.object []
  (List.range g.length).foldl
    (fun st2 f =>
      let fn := g.getD f ⟨0, [], 0⟩
      let st3 : RunState := { st2 with funcDeps := pushFD st2.funcDeps s fn.depedencies }
      if fn.depedencies ≠ 0 ∨ stageNode.depedencies ≠ 0 then st3
      else
        { st3 with
            funcsQueue := st3.funcsQueue ++ [(s, f)]
            processed := st3.processed.set s (inc64 (st3.processed.getD s 0)) })
    st1

/-- The state built by `execute_current_machine` before the workers start
(main.cpp:414-455), for the first run of a machine: cleared stage counters,
one cleared in-degree vector and one zero in-flight counter per stage node
(the `clear` / `resize` calls at main.cpp:420-429), then the seeding loop. -/
def seedState (reg : Registry) : RunState :=
  let n := reg.machineGraph.length
  (List.range n).foldl (seedStage reg)
    ⟨[], [], List.replicate n [], List.replicate n 0, []⟩

/-- A full machine run: seed, then let workers drain the queue. -/
def machineRun (reg : Registry) (fuel : Nat) : RunState :=
  runWorkers reg (seedState reg) fuel

/- Trace predicates. -/

/-- Whether an event is the `threads_working_on_machine` increment. -/
def isInc : Event → Bool
  | Event.incWorking => true
  | _ => false

/-- Whether an event is the `threads_working_on_machine` decrement. -/
def isDec : Event → Bool
  | Event.decWorking => true
  | _ => false

/-- Whether an event acquires `queues_mutex`. -/
def isLock : Event → Bool
  | Event.lock => true
  | _ => false

/-- Whether an event releases `queues_mutex`. -/
def isUnlock : Event → Bool
  | Event.unlock => true
  | _ => false

/-- Events that are neither the working-counter increment nor decrement. -/
def noWorkEv (e : Event) : Bool := !isInc e && !isDec e

/-- Events that touch neither the working counter nor the mutex. -/
def plainEv (e : Event) : Bool := noWorkEv e && !isLock e && !isUnlock e

/-- Number of `queues_mutex` acquisitions minus releases among the first `i`
events: positive exactly when event position `i` executes inside a
mutex-protected critical section. -/
def lockDepthAt (tr : List Event) (i : Nat) : Nat :=
  (tr.take i).countP isLock - (tr.take i).countP isUnlock

/-- Walk a trace maintaining the `threads_working_on_machine` value (starting
from `w`); `true` iff every function enqueue in the trace happens while the
counter is nonzero. -/
def enqueuesCovered : Nat → List Event → Bool
  | _, [] => true
  | w, e :: rest =>
    match e with
    | Event.incWorking => enqueuesCovered (w + 1) rest
    | Event.decWorking => enqueuesCovered (w - 1) rest
    | Event.enqueueFunc _ _ => decide (w ≠ 0) && enqueuesCovered w rest
    | _ => enqueuesCovered w rest

/- Concrete machines used by the claims. -/

/-- One zero-in-degree stage holding three functions f1, f2, f3 (objects 1,
2, 3 at node indices 0, 1, 2) with dependency edges f1 -> f2 -> f3: node 0
has dependant 1, node 1 has dependant 2 (built as `link_node` builds them
from `func_stage_link(f2, s, {&l1})` and `func_stage_link(f3, s, {&l2})`). -/
def regChain3 : Registry :=
  ⟨[[⟨1, [1], 0⟩, ⟨2, [2], 1⟩, ⟨3, [], 1⟩]], [⟨0, [], 0⟩]⟩

/-- One zero-in-degree stage holding two functions with an edge from node 0
to node 1; used to trace the dependant-enqueue critical section. -/
def regChain2 : Registry :=
  ⟨[[⟨1, [1], 0⟩, ⟨2, [], 1⟩]], [⟨0, [], 0⟩]⟩

/-- Two stages S0 -> S1, one dependant-less function each (the shape of the
spec's scenario S3): machine node 0 (stage graph 0, in-degree 0, dependant
node 1) and machine node 1 (stage graph 1, in-degree 1). -/
def regTwoStage : Registry :=
  ⟨[[⟨1, [], 0⟩], [⟨2, [], 0⟩]], [⟨0, [1], 0⟩, ⟨1, [], 1⟩]⟩

/-- Trace of the worker iteration that dequeues and handles node (0,0) of
`regChain2` from its seeded state. -/
def trChain2 : List Event :=
  iterEvents regChain2 { seedState regChain2 with funcsQueue := [] } 0 0

/-- Trace of the worker iteration that dequeues and handles node (0,0) of
`regTwoStage` from its seeded state. -/
def trTwoStage : List Event :=
  iterEvents regTwoStage { seedState regTwoStage with funcsQueue := [] } 0 0

/- Thread-pool size (main.cpp:14-22, 196-200). -/

/-- The compile-time cap: main.cpp:18 defines `VINE_MAX_THREADS` to `2`
unconditionally, so the `#ifndef` fallback to `1e16` at main.cpp:20-22 is
dead and the translation unit is always compiled with cap 2, whether or not
the host configures a cap. -/
def VINE_MAX_THREADS : Nat := 2

/-- `get_thread_pool_size` (main.cpp:196-200): clamp `hardware_concurrency`
to the cap. -/
def get_thread_pool_size (hc : Nat) : Nat :=
  if hc > VINE_MAX_THREADS then VINE_MAX_THREADS else hc

/-- The pool size the spec describes for an unconfigured host: with the cap
"effectively unlimited", `min(hardware_concurrency, cap)` is
`hardware_concurrency` itself.  Stated from the spec's words for comparison
with `get_thread_pool_size`. -/
def pool_size_spec_unconfigured (hc : Nat) : Nat := hc

/- Worker-loop queue selection (main.cpp:392-409). -/

/-- What a worker picked: a function-queue locant or a task (tasks carry an
opaque numeric id here; their payload is irrelevant to the selection). -/
inductive WorkItem where
  | fromFuncs (fnl : Nat × Nat)
  | fromTasks (t : Nat)
deriving DecidableEq

/-- The selection made by `thread_worker_loop` while holding `queues_mutex`
(main.cpp:392-409): `if (!funcs_queue.empty())` take the function-queue
front, `else if (!tasks_queue.empty())` take the task-queue front; returns
the picked item and the remaining queues. -/
def workerPick :
    List (Nat × Nat) → List Nat →
      Option (WorkItem × List (Nat × Nat) × List Nat)
  | f :: fs, tq => some (WorkItem.fromFuncs f, fs, tq)
  | [], t :: ts => some (WorkItem.fromTasks t, [], ts)
  | [], [] => none

/- Graph registration (main.cpp:103-135, 154-165). -/

/-- A node under registration: function payload, dependants, in-degree.
A fresh node pushed by `get_node_id` is value-initialised (`{}`), modelled
as `⟨0, [], 0⟩`. -/
structure RegNode where
  object : Nat
  dependant : List Nat
  depedencies : Nat
deriving DecidableEq

/-- Registration state: one inner graph per stage (`stages_reg`, with
`get_stage_impl` creating empty graphs on demand — pre-created empty here)
and the process-wide `link_object_to_graph_id` map (main.cpp:84), keyed by
link identity (a numeric stand-in for the link object's address). -/
structure RegEnv where
  graphs : List (List RegNode)
  linkMap : List (Nat × Nat)
deriving DecidableEq

/-- Lookup in `link_object_to_graph_id`. -/
def lookupLink (m : List (Nat × Nat)) (l : Nat) : Option Nat :=
  match m.find? (fun p => p.1 == l) with
  | some p => some p.2
  | none => none

/-- `get_node_id` (main.cpp:103-114): return the mapped id if the link is
known — from whatever graph it was first registered in — otherwise push a
fresh node onto the given stage's graph and record its index. -/
def get_node_id (env : RegEnv) (stageIdx : Nat) (link : Nat) : Nat × RegEnv :=
  match lookupLink env.linkMap link with
  | some id => (id, env)
  | none =>
    let g := env.graphs.getD stageIdx []
    let g2 := g ++ [(⟨0, [], 0⟩ : RegNode)]
    (g2.length - 1, ⟨env.graphs.set stageIdx g2, (link, g2.length - 1) :: env.linkMap⟩)

/-- Update node `id` of stage `stageIdx`; `none` models the out-of-bounds
`graph.nodes[id]` access (undefined behaviour in the source). -/
def setNode (env : RegEnv) (stageIdx id : Nat) (upd : RegNode → RegNode) :
    Option RegEnv :=
  let g := env.graphs.getD stageIdx []
  match g.get? id with
  | none => none
  | some n => some ⟨env.graphs.set stageIdx (g.set id (upd n)), env.linkMap⟩

/-- The dependency loop of `link_node` (main.cpp:129-134): resolve each
dependency link through the global map (or create it in THIS graph) and
append the new node's index to the resolved node's dependant list — with no
check that the resolved id belongs to this graph. -/
def addDeps (stageIdx thisId : Nat) : RegEnv → List Nat → Option RegEnv
  | env, [] => some env
  | env, dep :: rest =>
    let r := get_node_id env stageIdx dep
    match setNode r.2 stageIdx r.1
        (fun n => { n with dependant := n.dependant ++ [thisId] }) with
    | none => none
    | some env2 => addDeps stageIdx thisId env2 rest

/-- `link_node` (main.cpp:116-135), as invoked by the `func_stage_link`
constructor (main.cpp:154-165): resolve or create this link's node, set its
payload and in-degree, then process the dependency list.  There is no
failure path in the source other than undefined behaviour; `none` appears
only for the out-of-bounds accesses. -/
def link_node (env : RegEnv) (stageIdx link funcObj : Nat) (deps : List Nat) :
    Option RegEnv :=
  let r := get_node_id env stageIdx link
  match setNode r.2 stageIdx r.1
      (fun n => { n with object := funcObj, depedencies := deps.length }) with
  | none => none
  | some env2 => addDeps stageIdx r.1 env2 deps

/-- Two stages (indices 0 and 1) with no links registered yet. -/
def regEnv0 : RegEnv := ⟨[[], []], []⟩

/-- Register link 0 = `func_stage_link(f, A, {})` (function 10 into stage 0),
then link 1 = `func_stage_link(g, B, {&link0})` (function 20 into stage 1
with a dependency on stage 0's link): the cross-stage case of claim C7. -/
def crossStageResult : Option RegEnv :=
  (link_node regEnv0 0 0 10 []).bind (fun e => link_node e 1 1 20 [0])

/- Machine-control state (main.cpp:28-47). -/

/-- The globals guarded by `state_mutex`: `current_machine`,
`queued_machine`, `should_shutdown` (machines identified by numeric ids
standing in for their addresses). -/
structure GlobalState where
  current_machine : Option Nat
  queued_machine : Option Nat
  should_shutdown : Bool
deriving DecidableEq

/-- The state at program load, before any registration. -/
def initialGlobalState : GlobalState := ⟨none, none, false⟩

/-- `vine::set_machine` (main.cpp:39-42): unconditionally store the machine
into `queued_machine`. -/
def set_machine (m : Nat) (s : GlobalState) : GlobalState :=
  { s with queued_machine := some m }

/-- The `default_machine_link` constructor (main.cpp:35-37): it just calls
`set_machine`; there is no check whether a default was already set. -/
def default_machine_link (m : Nat) (s : GlobalState) : GlobalState :=
  set_machine m s

/- Worker ids (vine.hpp:41-48). -/

/-- Modelled from the spec: `get_thread_id` and `get_threads_amount` are
declared in vine.hpp:41-48 but have no definition anywhere in the sources
(main.cpp's `alloc_thread_pool` spawns the workers without assigning ids).
Per the spec, each of the `n` workers owns a stable id in `[0, n)`;
worker `w` is modelled as owning id `w`. -/
def get_thread_id (worker : Nat) : Nat := worker

/-- Modelled from the spec: the worker count is the pool size. -/
def get_threads_amount (poolSize : Nat) : Nat := poolSize

/-- The ids returned concurrently by the `n` workers of the pool. -/
def workerIdSet (n : Nat) : List Nat := (List.range n).map get_thread_id

/- Task promises (main.cpp:255-311). -/

/-- The heap of promise shared states: a reference count per state id and
the list of ids whose `implementation` has been `delete`d. -/
structure PromiseHeap where
  refcount : Nat → Nat
  freed : List Nat

/-- A `vine::task_promise` handle: `impl` is the shared-state pointer, or
`none` for a null handle (vine.hpp:129-141). -/
structure task_promise where
  impl : Option Nat
deriving DecidableEq

/-- `task_promise::operator=` (main.cpp:291-300): when the two handles hold
different states, release the old state (`fetch_sub`; `delete` when the old
count was 1) and retain the new (`fetch_add`); when they hold the same
state (including self-assignment) do nothing. -/
def promise_assign (h : PromiseHeap) (p other : task_promise) :
    PromiseHeap × task_promise :=
  if p.impl ≠ other.impl then
    let h1 : PromiseHeap :=
      match p.impl with
      | none => h
      | some i =>
        if h.refcount i = 1 then ⟨Function.update h.refcount i 0, i :: h.freed⟩
        else ⟨Function.update h.refcount i (h.refcount i - 1), h.freed⟩
    let h2 : PromiseHeap :=
      match other.impl with
      | none => h1
      | some j => ⟨Function.update h1.refcount j (h1.refcount j + 1), h1.freed⟩
    (h2, ⟨other.impl⟩)
  else (h, p)

/- Helper lemmas about the event trace. -/

/-- Plain events touch neither the working counter nor the mutex. -/
theorem plainEv_noWork {e : Event} (h : plainEv e = true) : noWorkEv e = true := by
  cases e <;> simp_all [plainEv, noWorkEv, isInc, isDec, isLock, isUnlock]

/-- Plain events are not lock acquisitions. -/
theorem plainEv_isLock {e : Event} (h : plainEv e = true) : isLock e = false := by
  cases e <;> simp_all [plainEv, noWorkEv, isInc, isDec, isLock, isUnlock]

/-- Plain events are not lock releases. -/
theorem plainEv_isUnlock {e : Event} (h : plainEv e = true) : isUnlock e = false := by
  cases e <;> simp_all [plainEv, noWorkEv, isInc, isDec, isLock, isUnlock]

/-- Events other than the working-counter updates are not the increment. -/
theorem noWork_isInc {e : Event} (h : noWorkEv e = true) : isInc e = false := by
  cases e <;> simp_all [noWorkEv, isInc, isDec]

/-- Events other than the working-counter updates are not the decrement. -/
theorem noWork_isDec {e : Event} (h : noWorkEv e = true) : isDec e = false := by
  cases e <;> simp_all [noWorkEv, isInc, isDec]

/-- `depStep` appends only plain events to the accumulated trace. -/
theorem depStep_events (s : Nat) (acc : RunState × List Event) (d : Nat) :
    ∃ l, (depStep s acc d).2 = acc.2 ++ l ∧ ∀ e ∈ l, plainEv e = true := by
  by_cases h : dec64 (getFD acc.1.funcDeps s d) ≠ 0
  · refine ⟨[Event.decFuncDep s d], ?_, ?_⟩
    · simp [depStep, h]
    · intro e he; simp only [List.mem_singleton] at he; subst he; rfl
  · refine ⟨[Event.decFuncDep s d, Event.enqueueFunc s d, Event.incProcessed s], ?_, ?_⟩
    · simp [depStep, h]
    · intro e he
      simp only [List.mem_cons, List.not_mem_nil, or_false] at he
      rcases he with rfl | rfl | rfl <;> rfl

/-- A fold of `depStep` appends only plain events. -/
theorem foldl_depStep_events (s : Nat) (l : List Nat) :
    ∀ acc : RunState × List Event,
      ∃ tl, (l.foldl (depStep s) acc).2 = acc.2 ++ tl ∧ ∀ e ∈ tl, plainEv e = true := by
  induction l with
  | nil => intro acc; exact ⟨[], by simp, by simp⟩
  | cons d rest ih =>
    intro acc
    obtain ⟨l0, h0, hp0⟩ := depStep_events s acc d
    obtain ⟨tl1, h1, hp1⟩ := ih (depStep s acc d)
    refine ⟨l0 ++ tl1, ?_, ?_⟩
    · rw [List.foldl_cons, h1, h0, List.append_assoc]
    · intro e he
      rcases List.mem_append.1 he with h | h
      · exact hp0 e h
      · exact hp1 e h

/-- `stageStep` appends only plain events to the accumulated trace. -/
theorem stageStep_events (reg : Registry) (acc : RunState × List Event) (ds : Nat) :
    ∃ l, (stageStep reg acc ds).2 = acc.2 ++ l ∧ ∀ e ∈ l, plainEv e = true := by
  by_cases h : dec64 (acc.1.stageDeps.getD ds 0) ≠ 0
  · refine ⟨[Event.decStageDep ds], ?_, ?_⟩
    · simp only [stageStep]
      rw [if_pos h]
    · intro e he; simp only [List.mem_singleton] at he; subst he; rfl
  · refine ⟨[Event.decStageDep ds] ++
        (independant (reg.stageGraphs.getD
          ((reg.machineGraph.getD ds ⟨0, [], 0⟩).object) [])).map
          (fun i => Event.enqueueFunc ds i), ?_, ?_⟩
    · simp only [stageStep]
      rw [if_neg h, List.append_assoc]
    · intro e he
      rcases List.mem_append.1 he with h1 | h1
      · simp only [List.mem_singleton] at h1; subst h1; rfl
      · obtain ⟨i, _, rfl⟩ := List.mem_map.1 h1; rfl

/-- A fold of `stageStep` appends only plain events. -/
theorem foldl_stageStep_events (reg : Registry) (l : List Nat) :
    ∀ acc : RunState × List Event,
      ∃ tl, (l.foldl (stageStep reg) acc).2 = acc.2 ++ tl ∧
        ∀ e ∈ tl, plainEv e = true := by
  induction l with
  | nil => intro acc; exact ⟨[], by simp, by simp⟩
  | cons d rest ih =>
    intro acc
    obtain ⟨l0, h0, hp0⟩ := stageStep_events reg acc d
    obtain ⟨tl1, h1, hp1⟩ := ih (stageStep reg acc d)
    refine ⟨l0 ++ tl1, ?_, ?_⟩
    · rw [List.foldl_cons, h1, h0, List.append_assoc]
    · intro e he
      rcases List.mem_append.1 he with h | h
      · exact hp0 e h
      · exact hp1 e h

/-- The events of `handleNode` decompose as the fixed prefix `[runFunc,
decProcessed]` followed either by one mutex-protected block `[lock] ++ mid
++ [unlock]` (the dependant traversal) or by an unprotected block `mid`
(the dependant-less drain branch, possibly empty), where `mid` holds only
plain events. -/
theorem handleNode_events_decomp (reg : Registry) (st : RunState) (s f : Nat) :
    ∃ mid,
      ((handleNode reg st s f).2 =
          [Event.runFunc s f, Event.decProcessed s] ++ [Event.lock] ++ mid ++ [Event.unlock] ∨
        (handleNode reg st s f).2 = [Event.runFunc s f, Event.decProcessed s] ++ mid) ∧
      ∀ e ∈ mid, plainEv e = true := by
  unfold handleNode
  dsimp only
  split
  · obtain ⟨tl, htl, hp⟩ := foldl_depStep_events s _ (_, [])
    refine ⟨tl, Or.inl ?_, hp⟩
    rw [htl]
    simp
  · split
    · obtain ⟨tl, htl, hp⟩ := foldl_stageStep_events reg _ (_, [])
      refine ⟨tl, Or.inr ?_, hp⟩
      rw [htl]
      simp
    · exact ⟨[], Or.inr (by simp), by simp⟩

/-- No event of `handleNode` touches `threads_working_on_machine`. -/
theorem handleNode_noWork (reg : Registry) (st : RunState) (s f : Nat) :
    ∀ e ∈ (handleNode reg st s f).2, noWorkEv e = true := by
  obtain ⟨mid, hdec, hp⟩ := handleNode_events_decomp reg st s f
  intro e he
  rcases hdec with h | h <;> rw [h] at he <;>
    simp only [List.mem_append, List.mem_cons, List.not_mem_nil, or_false,
      List.mem_singleton] at he
  · rcases he with (((rfl | rfl) | rfl) | hm) | rfl
    · rfl
    · rfl
    · rfl
    · exact plainEv_noWork (hp e hm)
    · rfl
  · rcases he with (rfl | rfl) | hm
    · rfl
    · rfl
    · exact plainEv_noWork (hp e hm)

/-- `handleNode` releases every `queues_mutex` acquisition it performs. -/
theorem handleNode_lockBalance (reg : Registry) (st : RunState) (s f : Nat) :
    (handleNode reg st s f).2.countP isLock = (handleNode reg st s f).2.countP isUnlock := by
  obtain ⟨mid, hdec, hp⟩ := handleNode_events_decomp reg st s f
  have hL : mid.countP isLock = 0 :=
    List.countP_eq_zero.2 (fun e he => by simp [plainEv_isLock (hp e he)])
  have hU : mid.countP isUnlock = 0 :=
    List.countP_eq_zero.2 (fun e he => by simp [plainEv_isUnlock (hp e he)])
  rcases hdec with h | h <;> rw [h] <;>
    simp [List.countP_append, List.countP_cons, hL, hU, isLock, isUnlock]

/-- Appending a block of events that do not touch the working counter, under
a nonzero counter, leaves `enqueuesCovered` unchanged. -/
theorem enqueuesCovered_append (w : Nat) (hw : w ≠ 0) (rest : List Event) :
    ∀ l : List Event, (∀ e ∈ l, noWorkEv e = true) →
      enqueuesCovered w (l ++ rest) = enqueuesCovered w rest := by
  intro l
  induction l with
  | nil => intro _; rfl
  | cons e l ih =>
    intro h
    have he := h e (List.mem_cons_self e l)
    have ihl := ih (fun x hx => h x (List.mem_cons_of_mem e hx))
    cases e <;> simp_all [enqueuesCovered, noWorkEv, isInc, isDec]

/- Claims. -/

/-- Claim C1 (amended): in the trace of a worker iteration handling one
function node, `threads_working_on_machine` is incremented inside the
critical section in which the node was dequeued (the trace starts `lock,
incWorking, dequeueFunc, unlock`); the single decrement is the final event
of the iteration, occurring after every critical section opened by the
iteration has been released (lock depth 0) — not inside the critical
section that performs the dependant enqueues; and every function enqueue of
the iteration occurs while the counter is nonzero, which is what keeps the
quiescence predicate "function queue empty and no worker busy" monotone
once established. -/
theorem C1_working_counter_amended (reg : Registry) (st : RunState) (s f : Nat) :
    (iterEvents reg st s f).take 4 =
        [Event.lock, Event.incWorking, Event.dequeueFunc s f, Event.unlock] ∧
    (iterEvents reg st s f).countP isInc = 1 ∧
    (iterEvents reg st s f).countP isDec = 1 ∧
    (iterEvents reg st s f).getLast? = some Event.decWorking ∧
    lockDepthAt (iterEvents reg st s f) ((iterEvents reg st s f).length - 1) = 0 ∧
    enqueuesCovered 0 (iterEvents reg st s f) = true := by
  have hB0 := handleNode_noWork reg st s f
  have hBinc : (handleNode reg st s f).2.countP isInc = 0 :=
    List.countP_eq_zero.2 (fun e he => by simp [noWork_isInc (hB0 e he)])
  have hBdec : (handleNode reg st s f).2.countP isDec = 0 :=
    List.countP_eq_zero.2 (fun e he => by simp [noWork_isDec (hB0 e he)])
  have hlb := handleNode_lockBalance reg st s f
  refine ⟨?_, ?_, ?_, ?_, ?_, ?_⟩
  · unfold iterEvents
    rw [List.append_assoc]
    exact List.take_left [Event.lock, Event.incWorking, Event.dequeueFunc s f, Event.unlock]
      ((handleNode reg st s f).2 ++ [Event.decWorking])
  · unfold iterEvents
    rw [List.countP_append, List.countP_append, hBinc]
    rfl
  · unfold iterEvents
    rw [List.countP_append, List.countP_append, hBdec]
    rfl
  · unfold iterEvents
    exact List.getLast?_concat _
  · have htake : (iterEvents reg st s f).take ((iterEvents reg st s f).length - 1) =
        [Event.lock, Event.incWorking, Event.dequeueFunc s f, Event.unlock] ++
          (handleNode reg st s f).2 := by
      unfold iterEvents
      rw [List.length_append, List.length_singleton, Nat.add_sub_cancel]
      exact List.take_left _ _
    unfold lockDepthAt
    rw [htake, List.countP_append, List.countP_append, hlb]
    have hA1 : ([Event.lock, Event.incWorking, Event.dequeueFunc s f, Event.unlock] :
        List Event).countP isLock = 1 := rfl
    have hA2 : ([Event.lock, Event.incWorking, Event.dequeueFunc s f, Event.unlock] :
        List Event).countP isUnlock = 1 := rfl
    rw [hA1, hA2]
    exact Nat.sub_self _
  · have hstep : enqueuesCovered 0 (iterEvents reg st s f) =
        enqueuesCovered 1 ((handleNode reg st s f).2 ++ [Event.decWorking]) := rfl
    rw [hstep, enqueuesCovered_append 1 one_ne_zero [Event.decWorking] _ hB0]
    rfl

/-- Claim C1, counterexample to the claim as stated: in the concrete trace
of the worker iteration that handles node (0,0) of `regChain2`, the
dependant enqueue (position 8) executes inside a `queues_mutex` critical
section (lock depth 1), while the `threads_working_on_machine` decrement is
the final event (position 11 of 12) and executes at lock depth 0, i.e.
after that critical section was released rather than inside it. -/
theorem C1_working_counter_counterexample :
    trChain2.get? 8 = some (Event.enqueueFunc 0 1) ∧
    lockDepthAt trChain2 8 = 1 ∧
    trChain2.get? 11 = some Event.decWorking ∧
    trChain2.length = 12 ∧
    lockDepthAt trChain2 11 = 0 := by decide

/-- Claim C2: in the concrete trace of the worker iteration that handles the
dependant-less node (0,0) of `regTwoStage`, the decrement of the stage's
in-flight counter `funcs_procesed_counters` (position 5), the dependant-less
drain branch's stage-counter decrement (position 6) and the successor-stage
enqueue (position 7) all execute at lock depth 0 — without holding
`queues_mutex` — contradicting the claim that the decrement and the entire
dependant traversal execute under the queue mutex (only the has-dependants
branch of main.cpp:330-344 relocks). -/
theorem C2_inflight_unlocked :
    trTwoStage.get? 5 = some (Event.decProcessed 0) ∧
    lockDepthAt trTwoStage 5 = 0 ∧
    trTwoStage.get? 6 = some (Event.decStageDep 1) ∧
    lockDepthAt trTwoStage 6 = 0 ∧
    trTwoStage.get? 7 = some (Event.enqueueFunc 1 0) ∧
    lockDepthAt trTwoStage 7 = 0 := by decide

/-- Claim C3: at drain of the two-stage machine `regTwoStage` (S0 -> S1, one
function each) the function queue is empty and both functions ran, but the
in-flight counter of stage 1 is `2 ^ 64 - 1`, not zero: activating stage 1
(main.cpp:356-359) enqueues its functions without incrementing
`funcs_procesed_counters[1]`, and handling the function then decrements the
zero counter (main.cpp:327), wrapping the `size_t`.  This contradicts the
claim that on machine drain all readiness counters are zero. -/
theorem C3_drain_nonzero_counter :
    (machineRun regTwoStage 10).funcsQueue = [] ∧
    (machineRun regTwoStage 10).executed = [(0, 0), (1, 0)] ∧
    (machineRun regTwoStage 10).stageDeps = [0, 0] ∧
    (machineRun regTwoStage 10).processed = [0, 2 ^ 64 - 1] ∧
    machineRun regTwoStage 100 = machineRun regTwoStage 10 := by decide

/-- Claim C4: running the machine `regChain3` (one zero-in-degree stage,
three functions with edges f1 -> f2 -> f3) executes exactly f1, f2, f3 in
that order — three executions in total — after which the function queue is
empty and further worker iterations change nothing. -/
theorem C4_linear_chain_order :
    (machineRun regChain3 10).executed = [(0, 0), (0, 1), (0, 2)] ∧
    (machineRun regChain3 10).funcsQueue = [] ∧
    machineRun regChain3 100 = machineRun regChain3 10 := by decide

/-- Claim C5: `get_thread_pool_size` clamps `hardware_concurrency` to
`VINE_MAX_THREADS`, which is unconditionally 2 (main.cpp:18 shadows the
`#ifndef` default of main.cpp:20-22), so with no host configuration and 4
hardware threads the pool has 2 workers, while the spec's unconfigured pool
size would be 4. -/
theorem C5_pool_size_capped :
    get_thread_pool_size 4 = 2 ∧
    pool_size_spec_unconfigured 4 = 4 ∧
    VINE_MAX_THREADS = 2 := by decide

/-- Claim C6: a worker that observes a non-empty function queue picks its
front item — also when the task queue is non-empty — and a task is picked
only when the function queue is empty. -/
theorem C6_function_queue_priority :
    (∀ f fs tq, tq ≠ [] →
        workerPick (f :: fs) tq = some (WorkItem.fromFuncs f, fs, tq)) ∧
    (∀ fq tq t fq2 tq2,
        workerPick fq tq = some (WorkItem.fromTasks t, fq2, tq2) → fq = []) := by
  constructor
  · intro f fs tq _
    rfl
  · intro fq tq t fq2 tq2 h
    cases fq with
    | nil => rfl
    | cons f fs => simp [workerPick] at h

/-- Claim C6, witness: with both queues non-empty the function-queue front
is picked, and a task pick forces an empty function queue. -/
theorem C6_function_queue_priority_witness :
    workerPick [(0, 0)] [7] = some (WorkItem.fromFuncs (0, 0), [], [7]) ∧
    ([] : List (Nat × Nat)) = [] :=
  ⟨C6_function_queue_priority.1 (0, 0) [] [7] (by decide),
    C6_function_queue_priority.2 [] [7] 7 [] [] rfl⟩

/-- Claim C7: registering `func_stage_link(f, A, {})` (link 0, function 10
into stage 0) and then `func_stage_link(g, B, {&link0})` (link 1, function
20 into stage 1, with a dependency link belonging to stage 0) does NOT
fail: `link_node` silently resolves the foreign link through the global
`link_object_to_graph_id` map to index 0 and appends the new node to THAT
index of stage 1's own graph, recording function g as a dependant of itself
with an in-degree of 1 that no function of stage 1 can ever satisfy. -/
theorem C7_cross_stage_silent :
    crossStageResult =
      some ⟨[[⟨10, [], 0⟩], [⟨20, [0], 1⟩]], [(1, 0), (0, 0)]⟩ := by decide

/-- Claim C8, counterexample to the claim as stated: a second
`default_machine_link` registration takes effect — `queued_machine` becomes
the second machine — instead of failing with a DefaultAlreadySet error (no
error path exists in main.cpp:35-42). -/
theorem C8_default_overwrite_counterexample :
    (default_machine_link 2 (default_machine_link 1 initialGlobalState)).queued_machine
        = some 2 ∧
    (some 2 : Option Nat) ≠ some 1 := by decide

/-- Claim C8 (amended): `default_machine_link` sets `queued_machine` to the
given machine, and a second registration silently overwrites the first
(header comments document single use as a caller restriction; no
DefaultAlreadySet error is raised). -/
theorem C8_default_overwrite (m1 m2 : Nat) (s : GlobalState) :
    (default_machine_link m1 s).queued_machine = some m1 ∧
    (default_machine_link m2 (default_machine_link m1 s)).queued_machine = some m2 := by
  exact ⟨rfl, rfl⟩

/-- Claim C9 (modelled from the spec, since `get_thread_id` /
`get_threads_amount` have no definition in the sources): the ids owned by
the `n` workers of the pool are pairwise distinct, an id occurs among them
exactly when it lies in `[0, get_threads_amount n)` — so the ids form
exactly the set `{0, ..., n-1}` — and each worker's `get_thread_id` value is
among them. -/
theorem C9_worker_ids (n : Nat) :
    (workerIdSet n).Nodup ∧
    (∀ i, i ∈ workerIdSet n ↔ i < get_threads_amount n) ∧
    (∀ w, w < n → get_thread_id w ∈ workerIdSet n) := by
  have hmap : workerIdSet n = List.range n := List.map_id _
  refine ⟨?_, ?_, ?_⟩
  · rw [hmap]
    exact List.nodup_range n
  · intro i
    rw [hmap, List.mem_range]
    exact Iff.rfl
  · intro w hw
    rw [hmap, List.mem_range]
    exact hw

/-- Claim C10: assigning to a `task_promise` a promise holding the same
shared state (including self-assignment) leaves the heap — every reference
count and the set of freed states — and the handle unchanged; in particular
it never drops a count to zero and never frees the shared state. -/
theorem C10_self_assign (h : PromiseHeap) (p other : task_promise)
    (hsame : p.impl = other.impl) :
    promise_assign h p other = (h, p) := by
  simp [promise_assign, hsame]

/-- Claim C10, witness: self-assignment of a live promise with reference
count 1 changes nothing. -/
theorem C10_self_assign_witness :
    promise_assign ⟨fun _ => 1, []⟩ ⟨some 0⟩ ⟨some 0⟩ =
      (⟨fun _ => 1, []⟩, ⟨some 0⟩) :=
  C10_self_assign ⟨fun _ => 1, []⟩ ⟨some 0⟩ ⟨some 0⟩ rfl

end Vine
